import Mathlib

/-!
Verification of the s3finder bucket-name pipeline (s3finder.go).

Strings are modelled as lists of characters (`Str`).  Each definition below
embeds one function or constant of s3finder.go; source line references are
given in the doc comments.  External collaborators (the publicsuffix lookup,
the LRU cache library, the JSON unmarshaller, the HTTP transport and the
certstream feed) are not part of the repository; they enter the model as
explicit parameters or, for the LRU cache, as a definition modelled from the
spec.
-/

namespace S3Finder

/-- Strings are lists of characters. -/
abbrev Str := List Char

/-- NAMECHARS (s3finder.go line 51): the allowed characters in a bucket name. -/
def NAMECHARS : Str := "abcdefghijklmnopqrstuvwxyz0123456789-.".data

/-- MAXLABELLEN (s3finder.go line 54): maximum length of a bucket label. -/
def MAXLABELLEN : Nat := 64

/-- MAXRECURSION (s3finder.go line 37): maximum number of times a single
bucket name is checked with different regions. -/
def MAXRECURSION : Nat := 10

/-- S3PATHURL (s3finder.go line 58): the S3 URL with S3 as a path component,
sometimes seen as a redirect target. -/
def S3PATHURL : Str := "https://aws.amazon.com/s3/".data

/-- The default AWS region string compared against on redirects
(s3finder.go line 425). -/
def usEast1 : Str := "us-east-1".data

/-- True when a character is in NAMECHARS (the filter of strings.Map in
processName, s3finder.go lines 519-524: characters outside NAMECHARS map
to -1, i.e. are removed). -/
def allowedChar (r : Char) : Bool := NAMECHARS.contains r

/-- strings.Map over NAMECHARS membership (s3finder.go lines 519-524):
every character outside the allowed alphabet is removed. -/
def sanitizeMap (n : Str) : Str := n.filter allowedChar

/-- strings.Trim(name, ".") (s3finder.go line 527): remove leading and
trailing dots. -/
def trimDots (n : Str) : Str :=
  ((n.dropWhile fun c => c = '.').reverse.dropWhile fun c => c = '.').reverse

/-- The sanitization performed at the top of processName
(s3finder.go lines 518-527): strip disallowed characters, trim dots. -/
def sanitize (n : Str) : Str := trimDots (sanitizeMap n)

/-- strings.Split(name, ".") (s3finder.go line 543), specialised to a
one-character separator: split into dot-separated labels. -/
def splitOnChar (sep : Char) : Str → List Str
  | [] => [[]]
  | c :: rest =>
    if c = sep then [] :: splitOnChar sep rest
    else
      match splitOnChar sep rest with
      | [] => [[c]]
      | h :: t => (c :: h) :: t

/-- strings.SplitN(name, ".", 2) (s3finder.go line 495): split at the first
separator only; a string with no separator yields a single part. -/
def splitN2 (sep : Char) : Str → List Str
  | [] => [[]]
  | c :: rest =>
    if c = sep then [[], rest]
    else
      match splitN2 sep rest with
      | [] => [[c]]
      | h :: t => (c :: h) :: t

/-- The label-length test of processName (s3finder.go lines 543-553): true
when some dot-separated label is longer than MAXLABELLEN. -/
def labelTooLong (name : Str) : Bool :=
  (splitOnChar '.' name).any fun part => decide (MAXLABELLEN < part.length)

/-- Modelled from the spec: the hashicorp golang-lru cache used as the `seen`
cache (s3finder.go line 166) is an external library; the spec describes it as
a bounded least-recently-used membership cache.  `entries` is kept most
recent first. -/
structure LRU where
  cap : Nat
  entries : List Str
deriving DecidableEq

/-- Modelled from the spec: seen.Get (s3finder.go line 535) as an LRU lookup
that reports membership and refreshes the recency of a hit. -/
def lruGet (st : LRU) (k : Str) : LRU × Bool :=
  if k ∈ st.entries then ({ st with entries := k :: st.entries.erase k }, true)
  else (st, false)

/-- Modelled from the spec: seen.Add (s3finder.go line 540) as an LRU insert
at the front, evicting beyond capacity. -/
def lruAdd (st : LRU) (k : Str) : LRU :=
  { st with entries := (k :: st.entries.erase k).take st.cap }

/-- One entry of the variant set built by sendWithDotsAndHyphensChanged
(s3finder.go lines 578-595): the string itself, dots to hyphens, hyphens to
dots, and both swapped in a single pass. -/
def variants (n : Str) : List Str :=
  [n,
   n.map fun r => if r = '.' then '-' else r,
   n.map fun r => if r = '-' then '.' else r,
   n.map fun r => if r = '.' then '-' else if r = '-' then '.' else r]

/-- Helper for collapseDots: `prevDot` records whether the previously kept
character was a dot. -/
def collapseDotsAux : Bool → Str → Str
  | _, [] => []
  | prevDot, c :: rest =>
    if c = '.' then
      if prevDot then collapseDotsAux true rest
      else '.' :: collapseDotsAux true rest
    else c :: collapseDotsAux false rest

/-- The ".." compression of sendWithDotsAndHyphensChanged (s3finder.go lines
598-608): repeatedly replacing ".." by "." until none remains collapses every
run of two or more dots to a single dot. -/
def collapseDots (s : Str) : Str := collapseDotsAux false s

/-- Order-preserving deduplication; stands in for the map used as a deduper in
sendWithDotsAndHyphensChanged (s3finder.go line 575), whose iteration order Go
leaves unspecified. -/
def dedupFirst (ns : List Str) : List Str :=
  ns.foldl (fun acc n => if n ∈ acc then acc else acc ++ [n]) []

/-- sendWithDotsAndHyphensChanged (s3finder.go lines 574-614): build the four
dot/hyphen variants of every input, compress runs of dots, and emit each
distinct result once. -/
def sendWithDotsAndHyphensChanged (ns : List Str) : List Str :=
  dedupFirst ((dedupFirst ((ns.map variants).flatten)).map collapseDots)

/-- processName (s3finder.go lines 512-569): sanitize the name, drop it if
empty, skip it if already seen, mark it seen, drop it if a label is too long,
otherwise emit the name and its tag combinations through
sendWithDotsAndHyphensChanged.  Returns the updated seen cache and the list
of candidate names sent to bucketch. -/
def processName (st : LRU) (name : Str) (tags : List Str) : LRU × List Str :=
  let s := sanitize name
  if s = [] then (st, [])
  else
    let g := lruGet st s
    if g.2 then (g.1, [])
    else
      let st2 := lruAdd g.1 s
      if labelTooLong s then (st2, [])
      else
        let base := sendWithDotsAndHyphensChanged [s]
        let tagged := (tags.map fun tag =>
          sendWithDotsAndHyphensChanged
            [tag ++ s, s ++ tag,
             tag ++ '.' :: s, s ++ '.' :: tag,
             tag ++ '-' :: s, s ++ '-' :: tag]).flatten
        (st2, base ++ tagged)

/-- How the walk of processNames over a dotted name ends. -/
inductive WalkExit
  | normal
  | earlyReturn
  | panicked
  | fuelOut
deriving DecidableEq

/-- The domain walk of processNames (s3finder.go lines 491-506): while the
remaining name differs from the public suffix, record the remaining name and
its leftmost label as probe bases, then continue with the parent.  A split
that does not yield two parts is the log.Panicf case (line 497); an empty
parent is the early `return` (lines 503-505).  `fuel` bounds the recursion
and is always instantiated with more than the length of the name, which the
walk strictly decreases. -/
def walkAux (fuel : Nat) (name ps : Str) : List Str × WalkExit :=
  match fuel with
  | 0 => ([], .fuelOut)
  | fuel + 1 =>
    if name = ps then ([], .normal)
    else
      match splitN2 '.' name with
      | [l, r] =>
        if r = [] then ([name, l], .earlyReturn)
        else
          let w := walkAux fuel r ps
          (name :: l :: w.1, w.2)
      | _ => ([name], .panicked)

/-- The domain walk with its fuel fixed at one more than the length of the
name, which suffices because each iteration strictly shortens the name. -/
def domainWalk (name ps : Str) : List Str × WalkExit :=
  walkAux (name.length + 1) name ps

/-- How the generator loop of processNames ends. -/
inductive GenExit
  | drained
  | earlyReturn
  | panicked
  | fuelOut
deriving DecidableEq

/-- strings.TrimSpace (s3finder.go line 474). -/
def trimSpace (s : Str) : Str :=
  ((s.dropWhile Char.isWhitespace).reverse.dropWhile Char.isWhitespace).reverse

/-- True when the string contains a dot (strings.Contains(name, "."),
s3finder.go line 480). -/
def hasDot (s : Str) : Bool := s.contains '.'

/-- processNames (s3finder.go lines 461-508): for each name read from the
seed channel, trim it, skip blanks and comments, expand dotless names
directly, and walk dotted names from most specific to the public suffix,
expanding every base through processName.  `psFn` stands for the external
publicsuffix.PublicSuffix lookup (line 488).  An early `return` inside the
walk (lines 503-505) or a panic ends the whole loop, leaving later seeds
unprocessed. -/
def processNames (psFn : Str → Str) (tags : List Str) :
    List Str → LRU → LRU × List Str × GenExit
  | [], st => (st, [], .drained)
  | seed :: rest, st =>
    let name := trimSpace seed
    if name = [] ∨ name.head? = some '#' then processNames psFn tags rest st
    else if hasDot name = false then
      let p := processName st name tags
      let r := processNames psFn tags rest p.1
      (r.1, p.2 ++ r.2.1, r.2.2)
    else
      let ps := psFn name
      let w := walkAux (name.length + 1) name ps
      let folded := w.1.foldl
        (fun (acc : LRU × List Str) b =>
          let p := processName acc.1 b tags
          (p.1, acc.2 ++ p.2)) (st, [])
      match w.2 with
      | .normal =>
        let r := processNames psFn tags rest folded.1
        (r.1, folded.2 ++ r.2.1, r.2.2)
      | .earlyReturn => (folded.1, folded.2, .earlyReturn)
      | .panicked => (folded.1, folded.2, .panicked)
      | .fuelOut => (folded.1, folded.2, .fuelOut)

/-- What the no-redirect client CheckRedirect callback decides
(s3finder.go lines 141-152). -/
inductive RedirectAction
  | follow
  | useLastResponse
deriving DecidableEq

/-- The CheckRedirect callback of the prober HTTP client (s3finder.go lines
141-152): a redirect whose request URL equals S3PATHURL is followed
(callback returns nil); every other redirect returns
http.ErrUseLastResponse. -/
def checkRedirect (reqURL : Str) : RedirectAction :=
  if reqURL = S3PATHURL then .follow else .useLastResponse

/-- One result of c.Do in check, supplied by the environment: either a
transport-level error carrying the error text, or an HTTP response carrying
the status, the x-amz-bucket-region header, and the location header. -/
inductive ProbeEvent
  | transportErr (msg : Str)
  | httpResp (status : Nat) (regionHdr : Str) (loc : Str)
deriving DecidableEq

/-- Terminal classification of one probe (the branches of check,
s3finder.go lines 341-456). `envExhausted` is a model artifact for a trace
that ends before the probe does. -/
inductive ProbeOutcome
  | tooManyAttempts
  | publicBucket
  | transportError
  | badRequest
  | forbidden
  | notABucket
  | unexpected
  | envExhausted
deriving DecidableEq

/-- Observable record of one probe: how many HTTP requests were issued, the
success-log records (name with bucket URL, s3finder.go line 421), how many
unexpected-redirect diagnostics were logged (lines 425-431), how many
backoff sleeps were taken (line 402), and the terminal classification. -/
structure ProbeResult where
  requests : Nat
  successes : List (Str × Str)
  unexpectedRedirects : Nat
  sleeps : Nat
  outcome : ProbeOutcome
deriving DecidableEq

/-- The region canonicalisation at the top of check (s3finder.go lines
356-359): a non-empty region not already starting with a dash gets a leading
dash. -/
def canonRegion (region : Str) : Str :=
  if region = [] then region
  else if ['-'].isPrefixOf region then region
  else '-' :: region

/-- fmt.Sprintf(S3URL, region) (s3finder.go lines 41 and 362-365): the
endpoint URL with the region rendered into the host. -/
def s3URL (region : Str) : Str :=
  "https://s3".data ++ region ++ ".amazonaws.com".data

/-- The transient-error test of check (s3finder.go lines 380-394): an error
text ending in ": EOF", "no route to host" or ": TLS handshake timeout" is
retried; anything else is terminal. -/
def isTransient (msg : Str) : Bool :=
  ": EOF".data.isSuffixOf msg ||
  "no route to host".data.isSuffixOf msg ||
  ": TLS handshake timeout".data.isSuffixOf msg

/-- check (s3finder.go lines 341-456): with no recursion budget left, stop
with too many attempts (lines 351-354); otherwise canonicalise the region,
issue one request (consuming one environment event) and classify: transient
transport errors sleep and re-enter with the budget decremented (lines
377-413), HTTP 200 records a success (line 421), HTTP 307 re-enters with the
region header as the new hint and the budget decremented, logging an
unexpected-redirect diagnostic when the header is empty or the default
region (lines 422-433), and 400/403/404/other are terminal (lines
434-455). -/
def check (env : List ProbeEvent) (n region0 : Str) (rem : Nat) : ProbeResult :=
  match rem with
  | 0 => ⟨0, [], 0, 0, .tooManyAttempts⟩
  | rem + 1 =>
    let region := canonRegion region0
    let bucketURL := s3URL region ++ '/' :: n
    match env with
    | [] => ⟨0, [], 0, 0, .envExhausted⟩
    | ev :: env =>
      match ev with
      | .transportErr msg =>
        if isTransient msg then
          let r := check env n region rem
          { r with requests := r.requests + 1, sleeps := r.sleeps + 1 }
        else ⟨1, [], 0, 0, .transportError⟩
      | .httpResp status hdr _loc =>
        if status = 200 then ⟨1, [(n, bucketURL)], 0, 0, .publicBucket⟩
        else if status = 307 then
          let diag : Nat := if hdr = [] ∨ hdr = usEast1 then 1 else 0
          let r := check env n hdr rem
          { r with requests := r.requests + 1,
                   unexpectedRedirects := r.unexpectedRedirects + diag }
        else if status = 400 then ⟨1, [], 0, 0, .badRequest⟩
        else if status = 403 then ⟨1, [], 0, 0, .forbidden⟩
        else if status = 404 then ⟨1, [], 0, 0, .notABucket⟩
        else ⟨1, [], 0, 0, .unexpected⟩

/-- One probe as started by checker (s3finder.go lines 322-333): check with
an empty region hint and the full MAXRECURSION budget. -/
def probeName (env : List ProbeEvent) (n : Str) : ProbeResult :=
  check env n [] MAXRECURSION

/-- One delivery observed by the select loop of watchLogs
(s3finder.go lines 272-307). -/
inductive StreamEvent
  | certMsg (names : List Str)
  | certParseErr
  | certClose
  | errMsg (msg : Str)
  | errClose
deriving DecidableEq

/-- How the watchLogs loop ends: errClose breaks CERTLOOP (finished), an
error on the error channel is log.Fatalf (fatal), and a trace that ends
otherwise leaves the loop still blocked in its select. -/
inductive StreamOutcome
  | finished
  | fatal
  | blocked
deriving DecidableEq

/-- watchLogs (s3finder.go lines 268-308) over a trace of channel
deliveries: certificate events forward their non-wildcard names, a
certificate parse error is logged and skipped, closing the certificate
channel only nils that channel and keeps looping, an error delivery is
fatal for the run, and closing the error channel breaks the loop.  Returns
the names forwarded to namech and how the loop ended.  (Traces model what
the select observes, so no certMsg is delivered after certClose.) -/
def watchLogs : List StreamEvent → List Str × StreamOutcome
  | [] => ([], .blocked)
  | .certMsg names :: rest =>
    let (ns, o) := watchLogs rest
    (names.filter (fun n => n.contains '*' = false) ++ ns, o)
  | .certParseErr :: rest => watchLogs rest
  | .certClose :: rest => watchLogs rest
  | .errMsg _ :: _ => ([], .fatal)
  | .errClose :: _ => ([], .finished)

/-- An opening brace character, written via its code point. -/
def braceOpen : Char := Char.ofNat 123

/-- A closing brace character, written via its code point. -/
def braceClose : Char := Char.ofNat 125

/-- bytes.Replace(b, "}{", "},{", -1) (s3finder.go line 682): insert a comma
between adjacent JSON objects, scanning left to right. -/
def replaceBraces : Str → Str
  | [] => []
  | [c] => [c]
  | c1 :: c2 :: rest =>
    if c1 = braceClose ∧ c2 = braceOpen then
      braceClose :: ',' :: braceOpen :: replaceBraces rest
    else c1 :: replaceBraces (c2 :: rest)

/-- The bytes.Join wrapping of queryCTL (s3finder.go lines 680-684): bracket
the comma-repaired body into a JSON array. -/
def repairJSON (b : Str) : Str := '[' :: replaceBraces b ++ [']']

/-- An HTTP response as seen by queryCTL: status code and body. -/
structure HTTPResp where
  status : Nat
  body : Str
deriving DecidableEq

/-- queryCTL (s3finder.go lines 656-703): a failed GET propagates its error;
a 404 status returns an empty name list and no error; otherwise the body is
repaired into a JSON array and parsed (`parse` stands for the external
json.Unmarshal plus name_value extraction), a parse error propagates, and
the parsed names are returned with empty names dropped and duplicates
removed. -/
def queryCTL (parse : Str → Except Str (List Str))
    (resp : Except Str HTTPResp) : Except Str (List Str) :=
  match resp with
  | .error e => .error e
  | .ok r =>
    if r.status = 404 then .ok []
    else
      match parse (repairJSON r.body) with
      | .error e => .error e
      | .ok cs => .ok (dedupFirst (cs.filter fun c => c ≠ []))

/-- getCTLNames (s3finder.go lines 707-731) over a list of seed names, with
`query` standing for queryCTL applied to the network: every name is
forwarded; a name containing a dot additionally queries the subdomain index,
a query error is logged (counted) and skipped, and returned subdomains are
forwarded.  Returns the forwarded names and the number of lookup-failure
log lines. -/
def getCTLNames (query : Str → Except Str (List Str)) :
    List Str → List Str × Nat
  | [] => ([], 0)
  | n :: rest =>
    let (outs, errs) := getCTLNames query rest
    if hasDot n = false then (n :: outs, errs)
    else
      match query n with
      | .error _ => (n :: outs, errs + 1)
      | .ok ss => (n :: (ss ++ outs), errs)

/-! ## Helper lemmas -/

/-- Membership in a dot-trimmed string implies membership in the original. -/
theorem mem_trimDots {c : Char} {s : Str} (h : c ∈ trimDots s) : c ∈ s := by
  unfold trimDots at h
  rw [List.mem_reverse] at h
  have h1 := List.dropWhile_subset (l := (s.dropWhile fun c => c = '.').reverse)
    (fun c => c = '.') h
  rw [List.mem_reverse] at h1
  exact List.dropWhile_subset (fun c => c = '.') h1

/-- Dropping a satisfied predicate from the front leaves the last element
unchanged when the result is non-empty. -/
theorem getLast?_dropWhile_ne_nil (p : Char → Bool) (l : Str)
    (h : l.dropWhile p ≠ []) : (l.dropWhile p).getLast? = l.getLast? := by
  obtain ⟨tk, htk⟩ := List.dropWhile_suffix (l := l) p
  conv_rhs => rw [← htk]
  rw [List.getLast?_append]
  cases hd : (l.dropWhile p).getLast? with
  | none => exact absurd (List.getLast?_eq_none_iff.1 hd) h
  | some a => rfl

/-- A dot-trimmed string does not start with a dot. -/
theorem trimDots_head_ne (t : Str) : (trimDots t).head? ≠ some '.' := by
  unfold trimDots
  rw [List.head?_reverse]
  set D := (t.dropWhile fun c => c = '.').reverse.dropWhile fun c => c = '.' with hD
  by_cases hne : D = []
  · simp [hne]
  · rw [getLast?_dropWhile_ne_nil _ _ hne, List.getLast?_reverse]
    have h0 := List.head?_dropWhile_not (fun c => c = '.') t
    intro hcontra
    rw [hcontra] at h0
    simp at h0

/-- A dot-trimmed string does not end with a dot. -/
theorem trimDots_getLast_ne (t : Str) : (trimDots t).getLast? ≠ some '.' := by
  unfold trimDots
  rw [List.getLast?_reverse]
  have h0 := List.head?_dropWhile_not (fun c => c = '.')
    ((t.dropWhile fun c => c = '.').reverse)
  intro hcontra
  rw [hcontra] at h0
  simp at h0

/-! ## Claim C2: the prober HTTP client and redirects -/

/-- C2 counterexample: the claim says the redirect-check callback returns the
use-last-response signal for every redirect, but a redirect whose target URL
is exactly S3PATHURL is followed (the callback returns nil,
s3finder.go lines 146-149). -/
theorem c2_counterexample : checkRedirect S3PATHURL = RedirectAction.follow := by
  simp [checkRedirect]

/-- C2 (amended): the prober HTTP client follows no redirect except one whose
request URL is exactly S3PATHURL; for every other target the redirect-check
callback returns the use-last-response signal, handing the 3xx response back
to the prober. -/
theorem c2_redirects_not_followed (u : Str) (h : u ≠ S3PATHURL) :
    checkRedirect u = RedirectAction.useLastResponse := by
  simp [checkRedirect, h]

/-- C2 witness: a concrete non-S3PATHURL target is not followed. -/
theorem c2_redirects_not_followed_witness :
    checkRedirect "https://s3.amazonaws.com".data =
      RedirectAction.useLastResponse :=
  c2_redirects_not_followed _ (by decide)

/-! ## Claim C3: the certificate-stream adapter -/

/-- C3 counterexample: the claim says a clean end-of-stream on either channel
ends the adapter's processing, but after the event channel closes the loop
keeps running: it still consumes the error channel (here reaching a fatal
error), and with nothing further delivered it stays blocked rather than
ending. -/
theorem c3_counterexample :
    watchLogs [StreamEvent.certClose, StreamEvent.errMsg "boom".data] =
      ([], StreamOutcome.fatal) ∧
    (watchLogs [StreamEvent.certClose]).2 = StreamOutcome.blocked := by
  exact ⟨rfl, rfl⟩

/-- C3 (amended): the adapter terminates the entire run on an unrecoverable
stream-level error; a clean close of the error channel ends processing
without error; a clean close of the event channel alone does not end
processing — the loop carries on exactly as if only the remaining trace were
delivered, until the error channel closes or delivers an error. -/
theorem c3_stream_termination :
    (∀ (m : Str) (rest : List StreamEvent),
      watchLogs (StreamEvent.errMsg m :: rest) = ([], StreamOutcome.fatal)) ∧
    (∀ rest : List StreamEvent,
      watchLogs (StreamEvent.errClose :: rest) = ([], StreamOutcome.finished)) ∧
    (∀ rest : List StreamEvent,
      watchLogs (StreamEvent.certClose :: rest) = watchLogs rest) :=
  ⟨fun _ _ => rfl, fun _ => rfl, fun _ => rfl⟩

/-! ## Claim C10: 404 from the subdomain index -/

/-- C10: a 404 status from the subdomain index makes queryCTL return an empty
name list and no error (s3finder.go lines 664-667), so getCTLNames forwards
only the seed itself and logs no lookup failure for it. -/
theorem c10_ctl_404 (parse : Str → Except Str (List Str)) (body : Str)
    (n : Str) (h : hasDot n = true) :
    queryCTL parse (Except.ok ⟨404, body⟩) = Except.ok [] ∧
    getCTLNames (fun _ => queryCTL parse (Except.ok ⟨404, body⟩)) [n] =
      ([n], 0) := by
  refine ⟨rfl, ?_⟩
  simp [getCTLNames, h, queryCTL]

/-- C10 witness: a concrete dotted seed with a 404 lookup. -/
theorem c10_ctl_404_witness :
    queryCTL (fun _ => Except.ok []) (Except.ok ⟨404, []⟩) = Except.ok [] ∧
    getCTLNames (fun _ => queryCTL (fun _ => Except.ok []) (Except.ok ⟨404, []⟩))
      ["example.com".data] = (["example.com".data], 0) :=
  c10_ctl_404 (fun _ => Except.ok []) [] "example.com".data (by decide)

/-! ## Claim C9: dedup idempotence -/

/-- C9: submitting the same seed name twice yields candidate emission only on
the first occurrence: consecutively for any capacity of at least one, and in
general whenever the key has not been evicted between the two submissions
(it is still in the cache's entries); the cache is keyed on the sanitized
name before any permutation (s3finder.go lines 535-540), so the second
submission is skipped before any tag or separator variants are produced. -/
theorem c9_dedup (st : LRU) (name : Str) (tags : List Str)
    (h : 1 ≤ st.cap) :
    (processName (processName st name tags).1 name tags).2 = [] ∧
    (∀ st2 : LRU, sanitize name ∈ st2.entries →
      (processName st2 name tags).2 = []) := by
  have hskip : ∀ st2 : LRU, sanitize name ∈ st2.entries →
      (processName st2 name tags).2 = [] := by
    intro st2 hmem
    by_cases hs : sanitize name = []
    · simp [processName, hs]
    · simp [processName, hs, lruGet, hmem]
  refine ⟨?_, hskip⟩
  by_cases hs : sanitize name = []
  · simp [processName, hs]
  · have hmem : sanitize name ∈ ((processName st name tags).1).entries := by
      by_cases hm : sanitize name ∈ st.entries
      · simp [processName, hs, lruGet, hm]
      · obtain ⟨c, hc⟩ := Nat.exists_eq_add_of_le h
        by_cases hl : labelTooLong (sanitize name) = true <;>
          simp [processName, hs, lruGet, hm, lruAdd, hl, hc,
            Nat.add_comm 1 c, List.take_succ_cons]
    exact hskip _ hmem

/-- C9 witness: a concrete double submission emits nothing the second time. -/
theorem c9_dedup_witness :
    (processName (processName ⟨4, []⟩ "shemp".data []).1 "shemp".data []).2
      = [] :=
  (c9_dedup ⟨4, []⟩ "shemp".data [] (by decide)).1

/-! ## Claim C1: sanitization -/

/-- C1 counterexample: the claim's example says `Foo_Bar!.example.com`
sanitizes to `foobar.example.com`, but sanitization removes characters
outside NAMECHARS (it does not lowercase), so the uppercase F and B are
deleted and the result is `ooar.example.com`. -/
theorem c1_counterexample :
    sanitize "Foo_Bar!.example.com".data ≠ "foobar.example.com".data ∧
    sanitize "Foo_Bar!.example.com".data = "ooar.example.com".data := by
  exact ⟨by decide, by decide⟩

/-- C1 (amended): sanitization removes every character outside `[a-z0-9.-]`
and trims leading and trailing dots; a candidate whose sanitized form is
empty or contains a dot-separated label longer than 64 characters is dropped
and never probed; the input `Foo_Bar!.example.com` sanitizes to
`ooar.example.com` (uppercase characters are removed, not lowercased). -/
theorem c1_sanitize (s : Str) (st : LRU) (tags : List Str) :
    (sanitize s).all allowedChar = true ∧
    (sanitize s).head? ≠ some '.' ∧
    (sanitize s).getLast? ≠ some '.' ∧
    ((sanitize s = [] ∨ labelTooLong (sanitize s) = true) →
      (processName st s tags).2 = []) ∧
    sanitize "Foo_Bar!.example.com".data = "ooar.example.com".data := by
  refine ⟨?_, trimDots_head_ne _, trimDots_getLast_ne _, ?_, by decide⟩
  · rw [List.all_eq_true]
    intro x hx
    have hx2 := mem_trimDots hx
    exact (List.mem_filter.1 hx2).2
  · intro hdrop
    rcases hdrop with he | hl
    · simp [processName, he]
    · by_cases hs0 : sanitize s = []
      · simp [processName, hs0]
      · by_cases hg : (lruGet st (sanitize s)).2 = true
        · simp [processName, hs0, hg]
        · simp [processName, hs0, hg, hl]

/-- C1 witness: a concrete 65-character label is dropped. -/
theorem c1_sanitize_witness :
    (processName ⟨4, []⟩ (List.replicate 65 'a') []).2 = [] :=
  (c1_sanitize (List.replicate 65 'a') ⟨4, []⟩ []).2.2.2.1 (Or.inr (by decide))

/-- Splitting a label followed by a dot at the first dot yields the label and
the remainder. -/
theorem splitN2_label (a r : Str) (h : '.' ∉ a) :
    splitN2 '.' (a ++ '.' :: r) = [a, r] := by
  induction a with
  | nil => simp [splitN2]
  | cons c a ih =>
    have hc : ¬ c = '.' := fun e => h (e ▸ List.mem_cons_self c a)
    have h2 : '.' ∉ a := fun hm => h (List.mem_cons_of_mem _ hm)
    simp [splitN2, hc, ih h2]

/-- One unfolding of the walk at positive fuel. -/
theorem walkAux_succ (f : Nat) (nm ps : Str) :
    walkAux (f + 1) nm ps =
      if nm = ps then ([], .normal)
      else
        match splitN2 '.' nm with
        | [l, r] =>
          if r = [] then ([nm, l], .earlyReturn)
          else (nm :: l :: (walkAux f r ps).1, (walkAux f r ps).2)
        | _ => ([nm], .panicked) := rfl

/-- Unfolding the domain walk over two labels above a non-empty public
suffix: the walk emits the full name, the first label, the parent, and the
second label, then stops at the suffix. -/
theorem walkAux_two (k : Nat) (a b ps : Str)
    (hda : '.' ∉ a) (hdb : '.' ∉ b) (hps : ps ≠ []) :
    walkAux (k + 3) (a ++ '.' :: (b ++ '.' :: ps)) ps =
      ([a ++ '.' :: (b ++ '.' :: ps), a, b ++ '.' :: ps, b], .normal) := by
  have h1 : ¬ a ++ '.' :: (b ++ '.' :: ps) = ps := by
    intro e
    have := congrArg List.length e
    simp [List.length_append] at this
    omega
  have h2 : ¬ b ++ '.' :: ps = ps := by
    intro e
    have := congrArg List.length e
    simp [List.length_append] at this
    omega
  have h3 : ¬ b ++ '.' :: ps = [] := by simp
  have e3 : walkAux (k + 1) ps ps = ([], .normal) := by
    rw [walkAux_succ, if_pos rfl]
  have e2 : walkAux (k + 2) (b ++ '.' :: ps) ps = ([b ++ '.' :: ps, b], .normal) := by
    rw [show k + 2 = (k + 1) + 1 from rfl, walkAux_succ, if_neg h2,
      splitN2_label b _ hdb]
    simp [hps, e3]
  rw [show k + 3 = (k + 2) + 1 from rfl, walkAux_succ, if_neg h1]
  simp only [splitN2_label a _ hda]
  simp [h3, e2]

/-! ## Claim C4: the domain walk -/

/-- C4: for a seed of the form `a.b.example.com` whose public suffix is
`example.com`, the domain walk submits to per-name expansion exactly the
ordered bases `a.b.example.com`, `a`, `b.example.com`, `b`, and never
submits the bare public suffix itself (s3finder.go lines 485-507;
processNames folds processName over exactly this base list). -/
theorem c4_domain_walk (a b : Str) (ha : a ≠ []) (hb : b ≠ [])
    (hda : '.' ∉ a) (hdb : '.' ∉ b) :
    domainWalk (a ++ '.' :: (b ++ '.' :: "example.com".data))
        "example.com".data =
      ([a ++ '.' :: (b ++ '.' :: "example.com".data), a,
        b ++ '.' :: "example.com".data, b], .normal) ∧
    "example.com".data ∉
      [a ++ '.' :: (b ++ '.' :: "example.com".data), a,
        b ++ '.' :: "example.com".data, b] := by
  constructor
  · have hfuel : (a ++ '.' :: (b ++ '.' :: "example.com".data)).length + 1 =
        (a.length + b.length + 11) + 3 := by
      simp [List.length_append]
      omega
    rw [domainWalk, hfuel]
    exact walkAux_two _ a b _ hda hdb (by decide)
  · intro hmem
    have hdot : '.' ∈ "example.com".data := by decide
    simp only [List.mem_cons, List.not_mem_nil, or_false] at hmem
    rcases hmem with h | h | h | h
    · have := congrArg List.length h
      simp [List.length_append] at this <;> omega
    · exact hda (h ▸ hdot)
    · have := congrArg List.length h
      simp [List.length_append] at this <;> omega
    · exact hdb (h ▸ hdot)

/-- C4 witness: the walk on the concrete seed `foo.bar.example.com`. -/
theorem c4_domain_walk_witness :
    domainWalk ("foo".data ++ '.' :: ("bar".data ++ '.' :: "example.com".data))
        "example.com".data =
      (["foo".data ++ '.' :: ("bar".data ++ '.' :: "example.com".data),
        "foo".data, "bar".data ++ '.' :: "example.com".data, "bar".data],
        .normal) ∧
    "example.com".data ∉
      ["foo".data ++ '.' :: ("bar".data ++ '.' :: "example.com".data),
        "foo".data, "bar".data ++ '.' :: "example.com".data, "bar".data] :=
  c4_domain_walk "foo".data "bar".data (by decide) (by decide)
    (by decide) (by decide)

/-! ## Claim C5: the generator loop and the empty-remainder return -/

/-- C5 evaluation at the failing input: with the public-suffix lookup
returning the empty string for a trailing-dot name (as the external library
does for such names), the seed list `["foo.", "shemp"]` makes the walk of
`foo.` reach an empty remainder, and the `return` at s3finder.go lines
503-505 exits processNames entirely: only `foo` is emitted, the loop ends
early, and `shemp` is never expanded or emitted. -/
theorem c5_code_bug_eval :
    processNames (fun _ => []) [] ["foo.".data, "shemp".data] ⟨10240, []⟩ =
      (⟨10240, ["foo".data]⟩, ["foo".data], GenExit.earlyReturn) ∧
    "shemp".data ∉
      (processNames (fun _ => []) [] ["foo.".data, "shemp".data]
        ⟨10240, []⟩).2.1 := by
  exact ⟨by decide, by decide⟩

/-- The number of requests a probe issues never exceeds its remaining
recursion budget. -/
theorem check_requests_le (env : List ProbeEvent) (n region : Str)
    (rem : Nat) : (check env n region rem).requests ≤ rem := by
  induction rem generalizing env region with
  | zero => simp [check]
  | succ m ih =>
    cases env with
    | nil => simp [check]
    | cons ev env =>
      cases ev with
      | transportErr msg =>
        by_cases ht : isTransient msg = true
        · have := ih env (canonRegion region)
          simp [check, ht] <;> omega
        · simp [check, ht] <;> omega
      | httpResp status hdr loc =>
        have h307 := ih env hdr
        simp only [check]
        split_ifs <;> simp <;> omega

/-- A probe that ends with too many attempts has recorded no success. -/
theorem check_tooMany_successes (env : List ProbeEvent) (n region : Str)
    (rem : Nat) (h : (check env n region rem).outcome = .tooManyAttempts) :
    (check env n region rem).successes = [] := by
  induction rem generalizing env region with
  | zero => simp [check]
  | succ m ih =>
    cases env with
    | nil => simp [check]
    | cons ev env =>
      cases ev with
      | transportErr msg =>
        by_cases ht : isTransient msg = true
        · have h2 : (check env n (canonRegion region) m).outcome =
              .tooManyAttempts := by
            simpa [check, ht] using h
          simpa [check, ht] using ih env (canonRegion region) h2
        · simp [check, ht] at h
      | httpResp status hdr loc =>
        simp only [check] at h ⊢
        split_ifs at h ⊢ with h1 h2 <;> simp_all

/-! ## Claim C6: the retry budget bounds the probe -/

/-- C6: the retry budget starts at the fixed ceiling MAXRECURSION = 10
(checker starts every probe with it, s3finder.go line 328), every
redirect-follow and transient retry re-enters check with the budget
decremented by one, and a probe never issues more than 10 HTTP requests;
when the budget reaches zero the probe ends classified as too many attempts
(lines 351-354) with no success record.  The model's check is structurally
recursive on the budget, so the self-re-invocation terminates. -/
theorem c6_retry_budget (env : List ProbeEvent) (n : Str) :
    MAXRECURSION = 10 ∧
    (probeName env n).requests ≤ 10 ∧
    ((probeName env n).outcome = ProbeOutcome.tooManyAttempts →
      (probeName env n).successes = []) := by
  refine ⟨rfl, ?_, ?_⟩
  · exact check_requests_le env n [] 10
  · exact check_tooMany_successes env n [] 10

/-- C6 witness: ten redirects to the default region exhaust the budget with
exactly ten requests and no success record. -/
theorem c6_retry_budget_witness :
    (probeName (List.replicate 10 (ProbeEvent.httpResp 307 "eu-west-1".data []))
      "shemp".data).outcome = ProbeOutcome.tooManyAttempts ∧
    (probeName (List.replicate 10 (ProbeEvent.httpResp 307 "eu-west-1".data []))
      "shemp".data).successes = [] ∧
    (probeName (List.replicate 10 (ProbeEvent.httpResp 307 "eu-west-1".data []))
      "shemp".data).requests = 10 :=
  ⟨by decide,
   (c6_retry_budget (List.replicate 10 (ProbeEvent.httpResp 307 "eu-west-1".data []))
     "shemp".data).2.2 (by decide),
   by decide⟩

/-! ## Claim C7: HTTP 307 handling -/

/-- C7: on an HTTP 307 the probe reads the region header; it logs an
unexpected-redirect diagnostic exactly when the header is absent or equals
the default region us-east-1, and in either case still proceeds, re-entering
check with the region hint set to the header value and the budget
decremented by exactly one (s3finder.go lines 422-433); a non-empty region
hint without a leading dash is rendered into the endpoint host as a leading
dash plus the region token, and an empty hint addresses the default
endpoint (lines 356-365). -/
theorem c7_redirect_region (env : List ProbeEvent) (n region hdr loc : Str)
    (rem : Nat) :
    check (ProbeEvent.httpResp 307 hdr loc :: env) n region (rem + 1) =
      { check env n hdr rem with
          requests := (check env n hdr rem).requests + 1,
          unexpectedRedirects := (check env n hdr rem).unexpectedRedirects +
            (if hdr = [] ∨ hdr = usEast1 then 1 else 0) } ∧
    (hdr ≠ [] → ['-'].isPrefixOf hdr = false →
      s3URL (canonRegion hdr) =
        "https://s3-".data ++ hdr ++ ".amazonaws.com".data) ∧
    s3URL (canonRegion []) = "https://s3.amazonaws.com".data := by
  refine ⟨?_, ?_, rfl⟩
  · simp [check]
  · intro h1 h2
    have hd : "https://s3-".data = "https://s3".data ++ ['-'] := by decide
    simp [canonRegion, s3URL, h1, h2, hd]

/-- C7 witness: the endpoint rendering for the concrete header value
eu-west-1. -/
theorem c7_redirect_region_witness :
    s3URL (canonRegion "eu-west-1".data) =
      "https://s3-".data ++ "eu-west-1".data ++ ".amazonaws.com".data :=
  (c7_redirect_region [] "shemp".data [] "eu-west-1".data [] 0).2.1
    (by decide) (by decide)

/-! ## Claim C8: transient transport errors -/

/-- C8: a transport-level failure is retried exactly when the error text
matches one of the three transient classes (": EOF", "no route to host",
": TLS handshake timeout", s3finder.go lines 380-394): a transient failure
sleeps once and re-enters check with a region hint addressing the same
endpoint (the canonicalised hint, whose rendering is unchanged) and the
budget decremented by one, while every other transport error terminates the
probe immediately as a transport error after its single request, with no
retry and no sleep. -/
theorem c8_transient_retry (env : List ProbeEvent) (n region msg : Str)
    (rem : Nat) :
    ((": EOF".data.isSuffixOf msg = true ∨
      "no route to host".data.isSuffixOf msg = true ∨
      ": TLS handshake timeout".data.isSuffixOf msg = true) →
      check (ProbeEvent.transportErr msg :: env) n region (rem + 1) =
        { check env n (canonRegion region) rem with
            requests := (check env n (canonRegion region) rem).requests + 1,
            sleeps := (check env n (canonRegion region) rem).sleeps + 1 } ∧
      canonRegion (canonRegion region) = canonRegion region) ∧
    ((¬ (": EOF".data.isSuffixOf msg = true ∨
      "no route to host".data.isSuffixOf msg = true ∨
      ": TLS handshake timeout".data.isSuffixOf msg = true)) →
      check (ProbeEvent.transportErr msg :: env) n region (rem + 1) =
        ⟨1, [], 0, 0, ProbeOutcome.transportError⟩) := by
  constructor
  · intro h
    have ht : isTransient msg = true := by
      unfold isTransient
      rcases h with h | h | h <;> simp [h]
    constructor
    · simp [check, ht]
    · unfold canonRegion
      split_ifs with h1 h2 h3 h4 h5 <;> simp_all [List.isPrefixOf]
  · intro h
    have ht : isTransient msg = false := by
      simp only [not_or] at h
      obtain ⟨h1, h2, h3⟩ := h
      unfold isTransient
      simp_all [Bool.eq_false_iff, List.isSuffixOf_iff_suffix]
    simp [check, ht]

/-- C8 witness: a concrete transient error retries and a concrete permanent
error does not. -/
theorem c8_transient_retry_witness :
    (check [ProbeEvent.transportErr "read tcp: EOF".data] "shemp".data []
        2 =
      { check [] "shemp".data (canonRegion []) 1 with
          requests := (check [] "shemp".data (canonRegion []) 1).requests + 1,
          sleeps := (check [] "shemp".data (canonRegion []) 1).sleeps + 1 } ∧
      canonRegion (canonRegion []) = canonRegion []) ∧
    check [ProbeEvent.transportErr "connection refused".data] "shemp".data []
        2 = ⟨1, [], 0, 0, ProbeOutcome.transportError⟩ :=
  ⟨(c8_transient_retry [] "shemp".data [] "read tcp: EOF".data 1).1
      (Or.inl (by decide)),
   (c8_transient_retry [] "shemp".data [] "connection refused".data 1).2
      (by decide)⟩

end S3Finder
